import Mathlib

/-!
Verification of the signal core of the `biome_analyze` crate
(`crates/biome_analyze/src/signals.rs`).

The development shallowly embeds the data model and the three signal
accessors (`diagnostic`, `actions`, `transformations`) of the two
`AnalyzerSignal` implementers, `DiagnosticSignal` and `RuleSignal`, and
proves the behavioural properties stated in the specification: action
ordering (fix before suppression), the fix-kind policy (disabled / safe /
unsafe), the suppression-action invariant, silent recovery from
context-construction failure, purity of the accessors, and the two
projection views derived from an action sequence.

External collaborator types that live outside the embedded file
(`BatchMutation`, `ActionCategory`, `AnalyzerOptions`, `RuleContext`,
`CodeSuggestion`) are modelled from the specification's interface
descriptions; everything else is translated directly from the source.
-/

namespace Biome

/-- Safety classification of a fix (`biome_diagnostics::Applicability`):
`Always` (always-safe) or `MaybeIncorrect` (maybe-incorrect). -/
inductive Applicability
  | Always
  | MaybeIncorrect
deriving DecidableEq, Repr

/-- Per-rule fix policy (`crate::FixKind`): disabled (`None`), `Safe`, `Unsafe`. -/
inductive FixKind
  | None
  | Safe
  | Unsafe
deriving DecidableEq, Repr

/-- Preferred quote style resolved from the analyzer options. -/
inductive Quote
  | Double
  | Single
deriving DecidableEq, Repr

/-- JSX runtime mode resolved from the analyzer options. -/
inductive JsxRuntime
  | Transparent
  | ReactClassic
deriving DecidableEq, Repr

/-- A text range, with start and end offsets (`stop` stands for the
source's `end`, a reserved word here). -/
structure TextRange where
  start : Nat
  stop : Nat
deriving DecidableEq, Repr

instance : Inhabited TextRange := ⟨⟨0, 0⟩⟩

/-- Modelled from the spec: the mutation batch (`biome_rowan::BatchMutation`,
an external capability not part of the embedded file) is an accumulator of
structural edits against one immutable tree snapshot, reducible to a single
covering text range plus replacement text. Each edit is kept as its display
range and replacement text. -/
structure BatchMutation where
  edits : List (TextRange × String)
deriving DecidableEq, Repr

/-- Modelled from the spec: reduce a mutation batch to one covering text
range and one replacement text; an empty batch has no covering edit, so the
reduction yields nothing. -/
def BatchMutation.as_text_range_and_edit (m : BatchMutation) : Option (TextRange × String) :=
  match m.edits with
  | [] => none
  | e :: es =>
    some (es.foldl
      (fun acc p => (⟨min acc.1.start p.1.start, max acc.1.stop p.1.stop⟩, acc.2 ++ p.2)) e)

/-- Modelled from the spec: action category tag
(`biome_analyze::categories::ActionCategory`, external to the embedded
file): a quick fix, or another category identified by a string. -/
inductive ActionCategory
  | QuickFix
  | Other (s : String)
deriving DecidableEq, Repr

/-- Modelled from the spec: the distinguished category string used for
suppression actions (`categories::SUPPRESSION_ACTION_CATEGORY`). -/
def SUPPRESSION_ACTION_CATEGORY : String := "quickfix.suppressRule"

/-- Modelled from the spec: whether a category matches a category filter
string (`ActionCategory::matches`). -/
def ActionCategory.matches : ActionCategory → String → Bool
  | .QuickFix, f => f == "quickfix"
  | .Other s, f => s == f

/-- Code action returned by the analyzer (`AnalyzerAction`): optional rule
identity `(group name, rule name)`, category, applicability, message and
the mutation carrying the edit. -/
structure AnalyzerAction where
  rule_name : Option (String × String)
  category : ActionCategory
  applicability : Applicability
  message : String
  mutation : BatchMutation
deriving DecidableEq, Repr

/-- `AnalyzerAction::is_suppression`: the action's category matches the
suppression category. -/
def AnalyzerAction.is_suppression (a : AnalyzerAction) : Bool :=
  a.category.matches SUPPRESSION_ACTION_CATEGORY

/-- A pure code transformation (`AnalyzerTransformation`): just a mutation. -/
structure AnalyzerTransformation where
  mutation : BatchMutation
deriving DecidableEq, Repr

/-- Diagnostic wrapper (`AnalyzerDiagnostic`), parametric in the wrapped
error value. -/
structure AnalyzerDiagnostic (D : Type) where
  inner : D
deriving DecidableEq, Repr

/-- Finite, size-known sequence of analyzer actions (`AnalyzerActionIter`,
which wraps a `vec::IntoIter`): modelled as the list of remaining items. -/
structure AnalyzerActionIter where
  analyzer_actions : List AnalyzerAction
deriving DecidableEq, Repr

def AnalyzerActionIter.new (actions : List AnalyzerAction) : AnalyzerActionIter :=
  ⟨actions⟩

/-- `Iterator::next` for `AnalyzerActionIter`: yields the next action and
the advanced iterator; an exhausted iterator keeps yielding `none`
(`FusedIterator`). -/
def AnalyzerActionIter.next : AnalyzerActionIter → Option AnalyzerAction × AnalyzerActionIter
  | ⟨[]⟩ => (none, ⟨[]⟩)
  | ⟨a :: rest⟩ => (some a, ⟨rest⟩)

/-- `ExactSizeIterator::len` for `AnalyzerActionIter`. -/
def AnalyzerActionIter.len (it : AnalyzerActionIter) : Nat :=
  it.analyzer_actions.length

/-- Finite sequence of analyzer transformations (`AnalyzerTransformationIter`). -/
structure AnalyzerTransformationIter where
  analyzer_transformations : List AnalyzerTransformation
deriving DecidableEq, Repr

def AnalyzerTransformationIter.new
    (transformations : List AnalyzerTransformation) : AnalyzerTransformationIter :=
  ⟨transformations⟩

def AnalyzerTransformationIter.next :
    AnalyzerTransformationIter → Option AnalyzerTransformation × AnalyzerTransformationIter
  | ⟨[]⟩ => (none, ⟨[]⟩)
  | ⟨t :: rest⟩ => (some t, ⟨rest⟩)

def AnalyzerTransformationIter.len (it : AnalyzerTransformationIter) : Nat :=
  it.analyzer_transformations.length

/-- Modelled from the spec: the flat code suggestion
(`biome_diagnostics::CodeSuggestion`, external to the embedded file): span,
applicability, message, replacement text, and labels reserved for
structured annotations. -/
structure CodeSuggestion where
  span : TextRange
  applicability : Applicability
  msg : String
  suggestion : String
  labels : List String
deriving DecidableEq, Repr

/-- Modelled from the spec: the advice projection of an action
(`CodeSuggestionAdvice`): applicability, message and suggested replacement. -/
structure CodeSuggestionAdvice where
  applicability : Applicability
  msg : String
  suggestion : String
deriving DecidableEq, Repr

/-- The flattened, display-ready projection of an analyzer action
(`CodeSuggestionItem`). -/
structure CodeSuggestionItem where
  category : ActionCategory
  suggestion : CodeSuggestion
  rule_name : Option (String × String)
deriving DecidableEq, Repr

/-- `From<AnalyzerAction> for CodeSuggestionAdvice`: reduce the action's
mutation to a covering edit, defaulting to an empty edit when the batch
reduces to nothing, and keep applicability and message. -/
def AnalyzerAction.toCodeSuggestionAdvice (action : AnalyzerAction) : CodeSuggestionAdvice :=
  let reduced := (action.mutation.as_text_range_and_edit).getD (⟨0, 0⟩, "")
  { applicability := action.applicability
    msg := action.message
    suggestion := reduced.2 }

/-- `From<AnalyzerAction> for CodeSuggestionItem`: same reduction, also
carrying the covering range as span, the rule identity, the category and an
empty label list. -/
def AnalyzerAction.toCodeSuggestionItem (action : AnalyzerAction) : CodeSuggestionItem :=
  let reduced := (action.mutation.as_text_range_and_edit).getD (⟨0, 0⟩, "")
  { rule_name := action.rule_name
    category := action.category
    suggestion :=
      { span := reduced.1
        applicability := action.applicability
        msg := action.message
        suggestion := reduced.2
        labels := [] } }

/-- Advice view over an action sequence (`CodeSuggestionAdviceIter`). -/
structure CodeSuggestionAdviceIter where
  iter : List AnalyzerAction
deriving DecidableEq, Repr

def CodeSuggestionAdviceIter.next :
    CodeSuggestionAdviceIter → Option CodeSuggestionAdvice × CodeSuggestionAdviceIter
  | ⟨[]⟩ => (none, ⟨[]⟩)
  | ⟨a :: rest⟩ => (some a.toCodeSuggestionAdvice, ⟨rest⟩)

def CodeSuggestionAdviceIter.len (it : CodeSuggestionAdviceIter) : Nat :=
  it.iter.length

/-- Flat suggestion view over an action sequence (`CodeActionIter`). -/
structure CodeActionIter where
  iter : List AnalyzerAction
deriving DecidableEq, Repr

def CodeActionIter.next : CodeActionIter → Option CodeSuggestionItem × CodeActionIter
  | ⟨[]⟩ => (none, ⟨[]⟩)
  | ⟨a :: rest⟩ => (some a.toCodeSuggestionItem, ⟨rest⟩)

def CodeActionIter.len (it : CodeActionIter) : Nat :=
  it.iter.length

/-- `AnalyzerActionIter::into_code_suggestion_advices`. -/
def AnalyzerActionIter.into_code_suggestion_advices
    (it : AnalyzerActionIter) : CodeSuggestionAdviceIter :=
  ⟨it.analyzer_actions⟩

/-- `AnalyzerActionIter::into_code_action_iter`. -/
def AnalyzerActionIter.into_code_action_iter (it : AnalyzerActionIter) : CodeActionIter :=
  ⟨it.analyzer_actions⟩

/-- Pull at most `n` elements from an advice view by repeated `next`,
returning the yielded elements and the final iterator state. -/
def CodeSuggestionAdviceIter.nextN :
    Nat → CodeSuggestionAdviceIter → List CodeSuggestionAdvice × CodeSuggestionAdviceIter
  | 0, it => ([], it)
  | n + 1, it =>
    match it.next with
    | (none, it2) => ([], it2)
    | (some x, it2) =>
      let r := CodeSuggestionAdviceIter.nextN n it2
      (x :: r.1, r.2)

/-- Pull at most `n` elements from a flat suggestion view by repeated
`next`, returning the yielded elements and the final iterator state. -/
def CodeActionIter.nextN :
    Nat → CodeActionIter → List CodeSuggestionItem × CodeActionIter
  | 0, it => ([], it)
  | n + 1, it =>
    match it.next with
    | (none, it2) => ([], it2)
    | (some x, it2) =>
      let r := CodeActionIter.nextN n it2
      (x :: r.1, r.2)

/-- Rust's `Result::ok`: keep a success, drop an error. -/
def resultOk : Except E A → Option A
  | Except.ok a => some a
  | Except.error _ => none

/-!
`DiagnosticSignal`: the minimal `AnalyzerSignal` implementation built from
factory closures. Its struct fields keep the source names `diagnostic`,
`action`, `transformation`; the trait methods are named `signalDiagnostic`,
`signalActions`, `signalTransformations` to avoid clashing with the field
accessors.
-/

/-- `DiagnosticSignal`: a diagnostic factory returning some `T` convertible
to an error, an optional action factory and an optional transformation
factory. -/
structure DiagnosticSignal (T : Type) where
  diagnostic : Unit → T
  action : Unit → Option AnalyzerAction
  transformation : Unit → Option AnalyzerTransformation

/-- `DiagnosticSignal::new`: the action and transformation factories are
initialised to constant `none` closures. -/
def DiagnosticSignal.new (factory : Unit → T) : DiagnosticSignal T :=
  { diagnostic := factory
    action := fun _ => none
    transformation := fun _ => none }

/-- `DiagnosticSignal::with_action`: replace the action factory, keeping
the diagnostic and transformation factories. -/
def DiagnosticSignal.with_action (s : DiagnosticSignal T)
    (factory : Unit → Option AnalyzerAction) : DiagnosticSignal T :=
  { diagnostic := s.diagnostic
    action := factory
    transformation := s.transformation }

/-- `AnalyzerSignal::diagnostic` for `DiagnosticSignal`: always invoke the
factory, convert to an error (`errorFrom` stands for `Error::from`) and
wrap the result in a present diagnostic. -/
def DiagnosticSignal.signalDiagnostic (errorFrom : T → E)
    (s : DiagnosticSignal T) : Option (AnalyzerDiagnostic E) :=
  let diag := s.diagnostic ()
  let error := errorFrom diag
  some ⟨error⟩

/-- `AnalyzerSignal::actions` for `DiagnosticSignal`: one element when the
action factory yields, otherwise empty. -/
def DiagnosticSignal.signalActions (s : DiagnosticSignal T) : AnalyzerActionIter :=
  match s.action () with
  | some action => AnalyzerActionIter.new [action]
  | none => AnalyzerActionIter.new []

/-- `AnalyzerSignal::transformations` for `DiagnosticSignal`: one element
when the transformation factory yields, otherwise empty. -/
def DiagnosticSignal.signalTransformations (s : DiagnosticSignal T) : AnalyzerTransformationIter :=
  match s.transformation () with
  | some transformation => AnalyzerTransformationIter.new [transformation]
  | none => AnalyzerTransformationIter.new []

/-!
The rule contract and the production `RuleSignal`.
-/

/-- A fix action produced by a rule's own `action` hook
(`crate::RuleAction`): category, applicability, message and mutation. -/
structure RuleAction where
  category : ActionCategory
  applicability : Applicability
  message : String
  mutation : BatchMutation
deriving DecidableEq, Repr

/-- A suppression produced by a rule's `suppress` hook: mutation plus
message. -/
structure SuppressAction where
  mutation : BatchMutation
  message : String
deriving DecidableEq, Repr

/-- The rule contract (`crate::rule::Rule`), parametric in the query output
`Q`, the match state `St`, the rule context `Ctx`, the options type `O`,
the suppression capability `Cap` and the rule diagnostic `D`. The identity
constants `<R::Group as RuleGroup>::NAME` and `R::METADATA.name` become the
fields `group_name` and `metadata_name`; the `Options: Default` bound
becomes the field `options_default`. The four optional hooks are pure
functions. -/
structure Rule (Q St Ctx O Cap D : Type) where
  group_name : String
  metadata_name : String
  options_default : O
  diagnostic : Ctx → St → Option D
  action : Ctx → St → Option RuleAction
  text_range : Ctx → St → Option TextRange
  suppress : Ctx → TextRange → Cap → Option SuppressAction
  transform : Ctx → St → Option BatchMutation

/-- Modelled from the spec: resolved analyzer options
(`biome_analyze::AnalyzerOptions`, external to the embedded file): ambient
globals, preferred quote style, file path, JSX runtime, and the per-rule
options blob and fix-kind policy already resolved for the rule at hand. -/
structure AnalyzerOptions (O : Type) where
  file_path : String
  globals_list : List String
  preferred_quote_style : Quote
  jsx_runtime_kind : JsxRuntime
  rule_options_value : Option O
  rule_fix_kind_value : Option FixKind

/-- `AnalyzerOptions::globals`. -/
def AnalyzerOptions.globals (o : AnalyzerOptions O) : List String :=
  o.globals_list

/-- `AnalyzerOptions::preferred_quote`. -/
def AnalyzerOptions.preferred_quote (o : AnalyzerOptions O) : Quote :=
  o.preferred_quote_style

/-- `AnalyzerOptions::jsx_runtime`. -/
def AnalyzerOptions.jsx_runtime (o : AnalyzerOptions O) : JsxRuntime :=
  o.jsx_runtime_kind

/-- `AnalyzerOptions::rule_options::<R>()`. -/
def AnalyzerOptions.rule_options (o : AnalyzerOptions O) : Option O :=
  o.rule_options_value

/-- `AnalyzerOptions::rule_fix_kind::<R>()`. -/
def AnalyzerOptions.rule_fix_kind (o : AnalyzerOptions O) : Option FixKind :=
  o.rule_fix_kind_value

/-- The fallible rule-context constructor (`RuleContext::new`, external to
the embedded file): from query result, root, services, globals, file path,
resolved options, preferred quote and JSX runtime to either a context or a
construction error. The signal accessors are parametric in it. -/
def RuleContextNew (Q Rt Sv O Ctx E : Type) : Type :=
  Q → Rt → Sv → List String → String → O → Quote → JsxRuntime → Except E Ctx

/-- The production signal (`RuleSignal`): tree root, query result, match
state, services bag, suppression capability and resolved analyzer options. -/
structure RuleSignal (Q St Rt Sv Cap O : Type) where
  root : Rt
  query_result : Q
  state : St
  services : Sv
  suppression_action : Cap
  options : AnalyzerOptions O

/-- `AnalyzerSignal::diagnostic` for `RuleSignal`: resolve globals, quote
style and the rule's options (defaulting when absent), build the context,
silently report no diagnostic when construction fails, and otherwise wrap
the rule's diagnostic hook result. -/
def RuleSignal.diagnostic (R : Rule Q St Ctx O Cap D)
    (ruleContextNew : RuleContextNew Q Rt Sv O Ctx E)
    (s : RuleSignal Q St Rt Sv Cap O) : Option (AnalyzerDiagnostic D) :=
  let globals := s.options.globals
  let preferred_quote := s.options.preferred_quote
  let options := (s.options.rule_options).getD R.options_default
  match resultOk (ruleContextNew s.query_result s.root s.services globals
      s.options.file_path options preferred_quote s.options.jsx_runtime) with
  | none => none
  | some ctx => (R.diagnostic ctx s.state).map (fun d => ⟨d⟩)

/-- The tail of `AnalyzerSignal::actions` for `RuleSignal`, after the
configured fix-kind has been resolved into an optional forced
applicability: build the context (empty result on failure); then push the
rule's fix action (if any) with the configured applicability override,
followed by the suppression action (if the anchor range and the
suppression hook both yield) tagged with the suppression category,
always-safe applicability and the rule's identity. -/
def RuleSignal.actionsWith (R : Rule Q St Ctx O Cap D)
    (ruleContextNew : RuleContextNew Q Rt Sv O Ctx E)
    (s : RuleSignal Q St Rt Sv Cap O)
    (configured_applicability : Option Applicability) : AnalyzerActionIter :=
  let options := (s.options.rule_options).getD R.options_default
  match resultOk (ruleContextNew s.query_result s.root s.services s.options.globals
      s.options.file_path options s.options.preferred_quote s.options.jsx_runtime) with
  | some ctx =>
    let fix_actions : List AnalyzerAction :=
      match R.action ctx s.state with
      | some action =>
        [{ rule_name := some (R.group_name, R.metadata_name)
           applicability := configured_applicability.getD action.applicability
           category := action.category
           mutation := action.mutation
           message := action.message }]
      | none => []
    let all_actions : List AnalyzerAction :=
      match R.text_range ctx s.state with
      | some text_range =>
        match R.suppress ctx text_range s.suppression_action with
        | some suppression_action =>
          fix_actions ++
            [{ rule_name := some (R.group_name, R.metadata_name)
               category := ActionCategory.Other SUPPRESSION_ACTION_CATEGORY
               applicability := Applicability.Always
               mutation := suppression_action.mutation
               message := suppression_action.message }]
        | none => fix_actions
      | none => fix_actions
    AnalyzerActionIter.new all_actions
  | none => AnalyzerActionIter.new []

/-- `AnalyzerSignal::actions` for `RuleSignal` proper: the initial match on
the configured fix-kind — `FixKind::None` disables the action outright
(early return of the empty sequence), `Safe` and `Unsafe` select the forced
applicability, absence of configuration selects no override — followed by
the common tail `actionsWith`. -/
def RuleSignal.actions (R : Rule Q St Ctx O Cap D)
    (ruleContextNew : RuleContextNew Q Rt Sv O Ctx E)
    (s : RuleSignal Q St Rt Sv Cap O) : AnalyzerActionIter :=
  match s.options.rule_fix_kind with
  | some FixKind.None => AnalyzerActionIter.new []
  | some FixKind.Safe =>
    RuleSignal.actionsWith R ruleContextNew s (some Applicability.Always)
  | some FixKind.Unsafe =>
    RuleSignal.actionsWith R ruleContextNew s (some Applicability.MaybeIncorrect)
  | none => RuleSignal.actionsWith R ruleContextNew s none

/-- `AnalyzerSignal::transformations` for `RuleSignal`: build the context
(empty result on failure) and wrap the zero-or-one result of the rule's
transform hook. -/
def RuleSignal.transformations (R : Rule Q St Ctx O Cap D)
    (ruleContextNew : RuleContextNew Q Rt Sv O Ctx E)
    (s : RuleSignal Q St Rt Sv Cap O) : AnalyzerTransformationIter :=
  let globals := s.options.globals
  let options := (s.options.rule_options).getD R.options_default
  match resultOk (ruleContextNew s.query_result s.root s.services globals
      s.options.file_path options s.options.preferred_quote s.options.jsx_runtime) with
  | some ctx =>
    match R.transform ctx s.state with
    | some mutation => AnalyzerTransformationIter.new [{ mutation := mutation }]
    | none => AnalyzerTransformationIter.new []
  | none => AnalyzerTransformationIter.new []

/-!
Derived notions used to state the properties.
-/

/-- The context each accessor works with: the result of the fallible
context constructor on the signal's own data, with errors dropped. -/
def RuleSignal.ruleContext (R : Rule Q St Ctx O Cap D)
    (ruleContextNew : RuleContextNew Q Rt Sv O Ctx E)
    (s : RuleSignal Q St Rt Sv Cap O) : Option Ctx :=
  resultOk (ruleContextNew s.query_result s.root s.services s.options.globals
    s.options.file_path ((s.options.rule_options).getD R.options_default)
    s.options.preferred_quote s.options.jsx_runtime)

/-- The applicability forced by a configured fix-kind: `Safe` forces
always-safe, `Unsafe` forces maybe-incorrect, everything else forces
nothing. -/
def configuredApplicability : Option FixKind → Option Applicability
  | some FixKind.Safe => some Applicability.Always
  | some FixKind.Unsafe => some Applicability.MaybeIncorrect
  | _ => none

/-- The fix action as `RuleSignal::actions` assembles it from the rule's
own action, under a given fix-kind configuration. -/
def mkFixAction (R : Rule Q St Ctx O Cap D) (fix_kind : Option FixKind)
    (action : RuleAction) : AnalyzerAction :=
  { rule_name := some (R.group_name, R.metadata_name)
    applicability := (configuredApplicability fix_kind).getD action.applicability
    category := action.category
    mutation := action.mutation
    message := action.message }

/-- The suppression action as `RuleSignal::actions` assembles it from the
suppression hook's result. -/
def mkSuppressionAction (R : Rule Q St Ctx O Cap D)
    (suppression_action : SuppressAction) : AnalyzerAction :=
  { rule_name := some (R.group_name, R.metadata_name)
    category := ActionCategory.Other SUPPRESSION_ACTION_CATEGORY
    applicability := Applicability.Always
    mutation := suppression_action.mutation
    message := suppression_action.message }

/-- The suppression that `RuleSignal::actions` resolves: the anchor range
from the rule's `text_range` hook, fed to the rule's `suppress` hook
together with the signal's suppression capability. -/
def resolvedSuppression (R : Rule Q St Ctx O Cap D)
    (s : RuleSignal Q St Rt Sv Cap O) (ctx : Ctx) : Option SuppressAction :=
  (R.text_range ctx s.state).bind fun text_range =>
    R.suppress ctx text_range s.suppression_action

/-- Structure lemma for the tail of `RuleSignal::actions` when the context
resolves: the produced sequence is the optional fix action followed by the
optional suppression action. -/
theorem actionsWith_eq (R : Rule Q St Ctx O Cap D)
    (ruleContextNew : RuleContextNew Q Rt Sv O Ctx E)
    (s : RuleSignal Q St Rt Sv Cap O) (ca : Option Applicability) (ctx : Ctx)
    (hctx : RuleSignal.ruleContext R ruleContextNew s = some ctx) :
    (RuleSignal.actionsWith R ruleContextNew s ca).analyzer_actions =
      ((R.action ctx s.state).map (fun action =>
          { rule_name := some (R.group_name, R.metadata_name)
            applicability := ca.getD action.applicability
            category := action.category
            mutation := action.mutation
            message := action.message })).toList ++
      ((resolvedSuppression R s ctx).map (mkSuppressionAction R)).toList := by
  unfold RuleSignal.ruleContext at hctx
  unfold RuleSignal.actionsWith
  simp only [hctx]
  rcases ha : R.action ctx s.state with _ | action <;>
    rcases htr : R.text_range ctx s.state with _ | text_range
  · simp [resolvedSuppression, htr, ha, AnalyzerActionIter.new]
  · rcases hs : R.suppress ctx text_range s.suppression_action with _ | sa <;>
      simp [resolvedSuppression, htr, ha, hs, mkSuppressionAction, AnalyzerActionIter.new]
  · simp [resolvedSuppression, htr, ha, AnalyzerActionIter.new]
  · rcases hs : R.suppress ctx text_range s.suppression_action with _ | sa <;>
      simp [resolvedSuppression, htr, ha, hs, mkSuppressionAction, AnalyzerActionIter.new]

/-- Structure lemma for the tail of `RuleSignal::actions` when the context
fails to resolve: the produced sequence is empty. -/
theorem actionsWith_fail (R : Rule Q St Ctx O Cap D)
    (ruleContextNew : RuleContextNew Q Rt Sv O Ctx E)
    (s : RuleSignal Q St Rt Sv Cap O) (ca : Option Applicability)
    (hctx : RuleSignal.ruleContext R ruleContextNew s = none) :
    RuleSignal.actionsWith R ruleContextNew s ca = AnalyzerActionIter.new [] := by
  unfold RuleSignal.ruleContext at hctx
  unfold RuleSignal.actionsWith
  simp only [hctx]

/-- Control-flow lemma: whenever the configured fix-kind is not `None`,
`RuleSignal::actions` is its tail applied to the applicability forced by
the configuration. -/
theorem actions_eq_actionsWith (R : Rule Q St Ctx O Cap D)
    (ruleContextNew : RuleContextNew Q Rt Sv O Ctx E)
    (s : RuleSignal Q St Rt Sv Cap O)
    (hfk : s.options.rule_fix_kind ≠ some FixKind.None) :
    RuleSignal.actions R ruleContextNew s =
      RuleSignal.actionsWith R ruleContextNew s
        (configuredApplicability s.options.rule_fix_kind) := by
  unfold RuleSignal.actions
  rcases hk : s.options.rule_fix_kind with _ | fk
  · simp [hk, configuredApplicability]
  · cases fk with
    | None => exact absurd hk hfk
    | Safe => simp [hk, configuredApplicability]
    | Unsafe => simp [hk, configuredApplicability]

/-!
Concrete instances used by the witnesses: a fully instantiated rule over
unit query, state, context, options, capability and diagnostic types,
together with a context constructor that succeeds and one that fails.
-/

def sampleMutation : BatchMutation := ⟨[(⟨1, 3⟩, "aria-hidden")]⟩

def sampleFix : RuleAction :=
  { category := ActionCategory.QuickFix
    applicability := Applicability.MaybeIncorrect
    message := "Remove the aria-hidden attribute from the element."
    mutation := sampleMutation }

def sampleSuppress : SuppressAction :=
  { mutation := ⟨[(⟨0, 0⟩, "// biome-ignore")]⟩
    message := "Suppress rule a11y/noAriaHiddenOnFocusable" }

def sampleRule : Rule Unit Unit Unit Unit Unit Unit :=
  { group_name := "a11y"
    metadata_name := "noAriaHiddenOnFocusable"
    options_default := ()
    diagnostic := fun _ _ => some ()
    action := fun _ _ => some sampleFix
    text_range := fun _ _ => some ⟨0, 5⟩
    suppress := fun _ _ _ => some sampleSuppress
    transform := fun _ _ => some sampleMutation }

def sampleOptions (fix_kind : Option FixKind) : AnalyzerOptions Unit :=
  { file_path := "file.js"
    globals_list := []
    preferred_quote_style := Quote.Double
    jsx_runtime_kind := JsxRuntime.Transparent
    rule_options_value := none
    rule_fix_kind_value := fix_kind }

def sampleSignal (fix_kind : Option FixKind) : RuleSignal Unit Unit Unit Unit Unit Unit :=
  { root := ()
    query_result := ()
    state := ()
    services := ()
    suppression_action := ()
    options := sampleOptions fix_kind }

def okContext : RuleContextNew Unit Unit Unit Unit Unit Unit :=
  fun _ _ _ _ _ _ _ _ => Except.ok ()

def failContext : RuleContextNew Unit Unit Unit Unit Unit Unit :=
  fun _ _ _ _ _ _ _ _ => Except.error ()

/-!
The claims.
-/

/-- C1: for a rule signal whose context construction succeeds and whose
fix-kind is not configured as disabled, `actions()` yields exactly the
optional fix action followed by the optional suppression action:
[fix, suppression] when the rule's fix hook yields and the anchor range
plus suppression capability resolve, [suppression] when only the latter
resolves, [fix] when only the fix hook yields, and the empty sequence when
neither resolves — the fix action always precedes the suppression action. -/
theorem actions_fix_before_suppression (R : Rule Q St Ctx O Cap D)
    (ruleContextNew : RuleContextNew Q Rt Sv O Ctx E)
    (s : RuleSignal Q St Rt Sv Cap O) (ctx : Ctx)
    (hctx : RuleSignal.ruleContext R ruleContextNew s = some ctx)
    (hfk : s.options.rule_fix_kind ≠ some FixKind.None) :
    (RuleSignal.actions R ruleContextNew s).analyzer_actions =
      ((R.action ctx s.state).map (mkFixAction R s.options.rule_fix_kind)).toList ++
      ((resolvedSuppression R s ctx).map (mkSuppressionAction R)).toList := by
  rw [actions_eq_actionsWith R ruleContextNew s hfk,
    actionsWith_eq R ruleContextNew s _ ctx hctx]
  rfl

/-- C1 witness: on the concrete rule whose fix hook, anchor-range hook and
suppression hook all yield, with unconfigured fix-kind, `actions()` yields
exactly [fix action, suppression action]. -/
theorem actions_fix_before_suppression_witness :
    (RuleSignal.actions sampleRule okContext (sampleSignal none)).analyzer_actions =
      [mkFixAction sampleRule none sampleFix,
        mkSuppressionAction sampleRule sampleSuppress] :=
  (actions_fix_before_suppression sampleRule okContext (sampleSignal none) () rfl
    (by decide)).trans (by decide)

/-- C2: for a rule signal whose fix-kind policy is configured as disabled
(`FixKind::None`), `actions()` yields the empty sequence, for every rule —
in particular regardless of what the fix hook, anchor-range hook or
suppression capability would produce — and for every context constructor. -/
theorem actions_fix_kind_none_empty (R : Rule Q St Ctx O Cap D)
    (ruleContextNew : RuleContextNew Q Rt Sv O Ctx E)
    (s : RuleSignal Q St Rt Sv Cap O)
    (h : s.options.rule_fix_kind = some FixKind.None) :
    RuleSignal.actions R ruleContextNew s = AnalyzerActionIter.new [] := by
  unfold RuleSignal.actions
  simp [h]

/-- C2 witness: on the concrete rule whose hooks all yield, configuring
fix-kind as disabled makes `actions()` empty. -/
theorem actions_fix_kind_none_empty_witness :
    RuleSignal.actions sampleRule okContext (sampleSignal (some FixKind.None)) =
      AnalyzerActionIter.new [] :=
  actions_fix_kind_none_empty sampleRule okContext
    (sampleSignal (some FixKind.None)) rfl

/-- Every member of a produced action sequence is either the assembled fix
action or the assembled suppression action. -/
theorem actions_mem_cases (R : Rule Q St Ctx O Cap D)
    (ruleContextNew : RuleContextNew Q Rt Sv O Ctx E)
    (s : RuleSignal Q St Rt Sv Cap O) (ctx : Ctx)
    (hctx : RuleSignal.ruleContext R ruleContextNew s = some ctx)
    (hfk : s.options.rule_fix_kind ≠ some FixKind.None)
    (a : AnalyzerAction)
    (ha : a ∈ (RuleSignal.actions R ruleContextNew s).analyzer_actions) :
    (∃ action, R.action ctx s.state = some action ∧
        a = mkFixAction R s.options.rule_fix_kind action) ∨
    (∃ sa, resolvedSuppression R s ctx = some sa ∧
        a = mkSuppressionAction R sa) := by
  rw [actions_eq_actionsWith R ruleContextNew s hfk,
    actionsWith_eq R ruleContextNew s _ ctx hctx] at ha
  rcases List.mem_append.1 ha with h1 | h2
  · rcases hact : R.action ctx s.state with _ | action
    · rw [hact] at h1
      simp at h1
    · rw [hact] at h1
      simp only [Option.map_some', Option.toList_some, List.mem_singleton] at h1
      exact Or.inl ⟨action, rfl, h1⟩
  · rcases hsup : resolvedSuppression R s ctx with _ | sa
    · rw [hsup] at h2
      simp at h2
    · rw [hsup] at h2
      simp only [Option.map_some', Option.toList_some, List.mem_singleton] at h2
      exact Or.inr ⟨sa, rfl, h2⟩

/-- C3: with the context resolving, a fix-kind configured as safe
(resp. unsafe) forces every non-suppression action produced by `actions()`
to applicability always-safe (resp. maybe-incorrect), overriding the
declared applicability; with fix-kind unconfigured, the fix action — the
head of the sequence when the fix hook yields — keeps the applicability
declared by the rule's hook. -/
theorem actions_applicability_override (R : Rule Q St Ctx O Cap D)
    (ruleContextNew : RuleContextNew Q Rt Sv O Ctx E)
    (s : RuleSignal Q St Rt Sv Cap O) (ctx : Ctx)
    (hctx : RuleSignal.ruleContext R ruleContextNew s = some ctx) :
    (s.options.rule_fix_kind = some FixKind.Safe →
      ∀ a ∈ (RuleSignal.actions R ruleContextNew s).analyzer_actions,
        a.category ≠ ActionCategory.Other SUPPRESSION_ACTION_CATEGORY →
        a.applicability = Applicability.Always) ∧
    (s.options.rule_fix_kind = some FixKind.Unsafe →
      ∀ a ∈ (RuleSignal.actions R ruleContextNew s).analyzer_actions,
        a.category ≠ ActionCategory.Other SUPPRESSION_ACTION_CATEGORY →
        a.applicability = Applicability.MaybeIncorrect) ∧
    (s.options.rule_fix_kind = none →
      ∀ action, R.action ctx s.state = some action →
        ((RuleSignal.actions R ruleContextNew s).analyzer_actions.head?).map
            AnalyzerAction.applicability = some action.applicability) := by
  refine ⟨fun hk a ha hcat => ?_, fun hk a ha hcat => ?_, fun hk action hact => ?_⟩
  · rcases actions_mem_cases R ruleContextNew s ctx hctx (by simp [hk]) a ha with
      ⟨act, _, rfl⟩ | ⟨sa, _, rfl⟩
    · simp [mkFixAction, hk, configuredApplicability]
    · exact absurd rfl hcat
  · rcases actions_mem_cases R ruleContextNew s ctx hctx (by simp [hk]) a ha with
      ⟨act, _, rfl⟩ | ⟨sa, _, rfl⟩
    · simp [mkFixAction, hk, configuredApplicability]
    · exact absurd rfl hcat
  · rw [actions_eq_actionsWith R ruleContextNew s (by simp [hk]),
      actionsWith_eq R ruleContextNew s _ ctx hctx, hact, hk]
    rcases resolvedSuppression R s ctx with _ | sa <;>
      simp [configuredApplicability]

/-- C3 witness: on the concrete rule, which declares maybe-incorrect,
configuring fix-kind as safe forces the produced fix action's applicability
to always-safe. -/
theorem actions_applicability_override_witness :
    (mkFixAction sampleRule (some FixKind.Safe) sampleFix).applicability =
      Applicability.Always :=
  (actions_applicability_override sampleRule okContext
      (sampleSignal (some FixKind.Safe)) () rfl).1 rfl
    (mkFixAction sampleRule (some FixKind.Safe) sampleFix) (by decide) (by decide)

/-- C4: whenever the suppression branch fires — the context resolves, the
fix-kind is not disabled, the anchor-range hook yields a range and the
suppression hook yields a suppression for it — the last action produced by
`actions()` is the suppression action, which carries the suppression
category, always-safe applicability and the originating rule's identity,
for every configured fix-kind other than disabled (so the configured
applicability override is never applied to it). -/
theorem suppression_action_invariant (R : Rule Q St Ctx O Cap D)
    (ruleContextNew : RuleContextNew Q Rt Sv O Ctx E)
    (s : RuleSignal Q St Rt Sv Cap O) (ctx : Ctx) (text_range : TextRange)
    (suppression_action : SuppressAction)
    (hctx : RuleSignal.ruleContext R ruleContextNew s = some ctx)
    (hfk : s.options.rule_fix_kind ≠ some FixKind.None)
    (htr : R.text_range ctx s.state = some text_range)
    (hsup : R.suppress ctx text_range s.suppression_action = some suppression_action) :
    (RuleSignal.actions R ruleContextNew s).analyzer_actions.getLast? =
      some (mkSuppressionAction R suppression_action) ∧
    (mkSuppressionAction R suppression_action).category =
      ActionCategory.Other SUPPRESSION_ACTION_CATEGORY ∧
    (mkSuppressionAction R suppression_action).applicability = Applicability.Always ∧
    (mkSuppressionAction R suppression_action).rule_name =
      some (R.group_name, R.metadata_name) := by
  refine ⟨?_, rfl, rfl, rfl⟩
  rw [actions_eq_actionsWith R ruleContextNew s hfk,
    actionsWith_eq R ruleContextNew s _ ctx hctx]
  have hres : resolvedSuppression R s ctx = some suppression_action := by
    simp [resolvedSuppression, htr, hsup]
  rw [hres]
  rcases R.action ctx s.state with _ | action <;> simp

/-- C4 witness: on the concrete rule under fix-kind unsafe, the last
produced action is the suppression action. -/
theorem suppression_action_invariant_witness :
    (RuleSignal.actions sampleRule okContext
        (sampleSignal (some FixKind.Unsafe))).analyzer_actions.getLast? =
      some (mkSuppressionAction sampleRule sampleSuppress) :=
  (suppression_action_invariant sampleRule okContext
    (sampleSignal (some FixKind.Unsafe)) () ⟨0, 5⟩ sampleSuppress rfl
    (by decide) rfl rfl).1

/-- C10: every action produced by `RuleSignal::actions` — fix action and
suppression action alike — carries a present rule identity, equal to the
pair (group name, rule name) of the originating rule. -/
theorem rule_signal_actions_rule_name (R : Rule Q St Ctx O Cap D)
    (ruleContextNew : RuleContextNew Q Rt Sv O Ctx E)
    (s : RuleSignal Q St Rt Sv Cap O) :
    ∀ a ∈ (RuleSignal.actions R ruleContextNew s).analyzer_actions,
      a.rule_name = some (R.group_name, R.metadata_name) := by
  intro a ha
  by_cases hfk : s.options.rule_fix_kind = some FixKind.None
  · unfold RuleSignal.actions at ha
    simp [hfk, AnalyzerActionIter.new] at ha
  · rcases hctx : RuleSignal.ruleContext R ruleContextNew s with _ | ctx
    · rw [actions_eq_actionsWith R ruleContextNew s hfk,
        actionsWith_fail R ruleContextNew s _ hctx] at ha
      simp [AnalyzerActionIter.new] at ha
    · rcases actions_mem_cases R ruleContextNew s ctx hctx hfk a ha with
        ⟨act, _, rfl⟩ | ⟨sa, _, rfl⟩
      · rfl
      · rfl

/-- C10 witness: on the concrete rule with unconfigured fix-kind, the
produced suppression action carries the rule's identity. -/
theorem rule_signal_actions_rule_name_witness :
    (mkSuppressionAction sampleRule sampleSuppress).rule_name =
      some ("a11y", "noAriaHiddenOnFocusable") :=
  rule_signal_actions_rule_name sampleRule okContext (sampleSignal none)
    (mkSuppressionAction sampleRule sampleSuppress) (by decide)

/-- C5: the three accessors are pure functions of the signal and its
collaborators — calling `diagnostic()`, `actions()` or `transformations()`
twice on the same signal (rule signal or diagnostic signal) over fixed
inputs, with pure rule hooks and factories, yields equal results on both
calls. -/
theorem signal_accessors_idempotent (R : Rule Q St Ctx O Cap D)
    (ruleContextNew : RuleContextNew Q Rt Sv O Ctx E)
    (s : RuleSignal Q St Rt Sv Cap O)
    (errorFrom : T → E2) (d : DiagnosticSignal T) :
    (RuleSignal.diagnostic R ruleContextNew s =
      RuleSignal.diagnostic R ruleContextNew s) ∧
    (RuleSignal.actions R ruleContextNew s =
      RuleSignal.actions R ruleContextNew s) ∧
    (RuleSignal.transformations R ruleContextNew s =
      RuleSignal.transformations R ruleContextNew s) ∧
    (DiagnosticSignal.signalDiagnostic errorFrom d =
      DiagnosticSignal.signalDiagnostic errorFrom d) ∧
    (DiagnosticSignal.signalActions d = DiagnosticSignal.signalActions d) ∧
    (DiagnosticSignal.signalTransformations d =
      DiagnosticSignal.signalTransformations d) :=
  ⟨rfl, rfl, rfl, rfl, rfl, rfl⟩

/-- C6: when context construction fails, the rule signal reports no
diagnostic, an empty action sequence and an empty transformation sequence;
none of the three accessors propagates the failure. -/
theorem context_failure_silent (R : Rule Q St Ctx O Cap D)
    (ruleContextNew : RuleContextNew Q Rt Sv O Ctx E)
    (s : RuleSignal Q St Rt Sv Cap O) (e : E)
    (hctx : ruleContextNew s.query_result s.root s.services s.options.globals
        s.options.file_path ((s.options.rule_options).getD R.options_default)
        s.options.preferred_quote s.options.jsx_runtime = Except.error e) :
    RuleSignal.diagnostic R ruleContextNew s = none ∧
    RuleSignal.actions R ruleContextNew s = AnalyzerActionIter.new [] ∧
    RuleSignal.transformations R ruleContextNew s =
      AnalyzerTransformationIter.new [] := by
  have hnone : RuleSignal.ruleContext R ruleContextNew s = none := by
    unfold RuleSignal.ruleContext
    rw [hctx]
    rfl
  have hnone' := hnone
  unfold RuleSignal.ruleContext at hnone'
  refine ⟨?_, ?_, ?_⟩
  · simp only [RuleSignal.diagnostic]
    rw [hnone']
  · by_cases hfk : s.options.rule_fix_kind = some FixKind.None
    · unfold RuleSignal.actions
      simp [hfk]
    · rw [actions_eq_actionsWith R ruleContextNew s hfk]
      exact actionsWith_fail R ruleContextNew s _ hnone
  · simp only [RuleSignal.transformations]
    rw [hnone']

/-- C6 witness: on the concrete rule, whose hooks all yield, a failing
context constructor silences all three accessors. -/
theorem context_failure_silent_witness :
    RuleSignal.diagnostic sampleRule failContext (sampleSignal none) = none ∧
    RuleSignal.actions sampleRule failContext (sampleSignal none) =
      AnalyzerActionIter.new [] ∧
    RuleSignal.transformations sampleRule failContext (sampleSignal none) =
      AnalyzerTransformationIter.new [] :=
  context_failure_silent sampleRule failContext (sampleSignal none) () rfl

/-- C7: a diagnostic signal built by the factory constructor, optionally
chained with `with_action`: `diagnostic()` always returns a present
diagnostic wrapping the converted factory result; `actions()` yields a
one-element sequence exactly when the fix factory is present and returns
an action, and the empty sequence otherwise; `transformations()` always
yields the empty sequence. -/
theorem diagnostic_signal_behavior (factory : Unit → T)
    (fix_factory : Unit → Option AnalyzerAction) (errorFrom : T → E2) :
    (DiagnosticSignal.signalDiagnostic errorFrom (DiagnosticSignal.new factory) =
      some ⟨errorFrom (factory ())⟩) ∧
    (DiagnosticSignal.signalActions (DiagnosticSignal.new factory) =
      AnalyzerActionIter.new []) ∧
    (DiagnosticSignal.signalTransformations (DiagnosticSignal.new factory) =
      AnalyzerTransformationIter.new []) ∧
    (DiagnosticSignal.signalDiagnostic errorFrom
        ((DiagnosticSignal.new factory).with_action fix_factory) =
      some ⟨errorFrom (factory ())⟩) ∧
    (∀ a, fix_factory () = some a →
      DiagnosticSignal.signalActions
          ((DiagnosticSignal.new factory).with_action fix_factory) =
        AnalyzerActionIter.new [a]) ∧
    (fix_factory () = none →
      DiagnosticSignal.signalActions
          ((DiagnosticSignal.new factory).with_action fix_factory) =
        AnalyzerActionIter.new []) ∧
    (DiagnosticSignal.signalTransformations
        ((DiagnosticSignal.new factory).with_action fix_factory) =
      AnalyzerTransformationIter.new []) := by
  refine ⟨rfl, rfl, rfl, rfl, fun a hf => ?_, fun hf => ?_, rfl⟩
  · simp only [DiagnosticSignal.signalActions, DiagnosticSignal.with_action,
      DiagnosticSignal.new]
    rw [hf]
  · simp only [DiagnosticSignal.signalActions, DiagnosticSignal.with_action,
      DiagnosticSignal.new]
    rw [hf]

/-- A diagnostic-only factory and a fix action used by the C7 witness. -/
def sampleDiagFactory : Unit → String := fun _ => "unterminated string literal"

def sampleDiagAction : AnalyzerAction :=
  { rule_name := none
    category := ActionCategory.QuickFix
    applicability := Applicability.Always
    message := "Terminate the string literal."
    mutation := sampleMutation }

/-- C7 witness: with a present fix factory returning an action, `actions()`
of the chained diagnostic signal yields exactly that one action. -/
theorem diagnostic_signal_behavior_witness :
    DiagnosticSignal.signalActions
        ((DiagnosticSignal.new sampleDiagFactory).with_action
          (fun _ => some sampleDiagAction)) =
      AnalyzerActionIter.new [sampleDiagAction] :=
  (diagnostic_signal_behavior sampleDiagFactory
      (fun _ => some sampleDiagAction) (fun t => t)).2.2.2.2.1
    sampleDiagAction rfl

/-- Draining an advice view by repeated `next` yields the projections of
the underlying actions in order and leaves the exhausted iterator. -/
theorem advice_nextN_drain (l : List AnalyzerAction) :
    CodeSuggestionAdviceIter.nextN l.length ⟨l⟩ =
      (l.map AnalyzerAction.toCodeSuggestionAdvice,
        (⟨[]⟩ : CodeSuggestionAdviceIter)) := by
  induction l with
  | nil => rfl
  | cons a rest ih =>
    simp [CodeSuggestionAdviceIter.nextN, CodeSuggestionAdviceIter.next, ih]

/-- Draining a flat suggestion view by repeated `next` yields the
projections of the underlying actions in order and leaves the exhausted
iterator. -/
theorem item_nextN_drain (l : List AnalyzerAction) :
    CodeActionIter.nextN l.length ⟨l⟩ =
      (l.map AnalyzerAction.toCodeSuggestionItem, (⟨[]⟩ : CodeActionIter)) := by
  induction l with
  | nil => rfl
  | cons a rest ih =>
    simp [CodeActionIter.nextN, CodeActionIter.next, ih]

/-- C8: for every action sequence, the advice view and the flat suggestion
view each yield exactly as many elements as the underlying sequence, in the
same order, each element being the pure projection of the corresponding
action — the advice view preserving applicability and message, the flat
view additionally carrying the action's rule identity and category and an
empty label list — and after yielding all elements each view yields nothing
further. -/
theorem action_views_faithful (it : AnalyzerActionIter) :
    ((CodeSuggestionAdviceIter.nextN it.len it.into_code_suggestion_advices).1 =
      it.analyzer_actions.map AnalyzerAction.toCodeSuggestionAdvice) ∧
    ((CodeActionIter.nextN it.len it.into_code_action_iter).1 =
      it.analyzer_actions.map AnalyzerAction.toCodeSuggestionItem) ∧
    (it.into_code_suggestion_advices.len = it.len) ∧
    (it.into_code_action_iter.len = it.len) ∧
    ((CodeSuggestionAdviceIter.nextN it.len it.into_code_suggestion_advices).2.next =
      (none, (⟨[]⟩ : CodeSuggestionAdviceIter))) ∧
    ((CodeActionIter.nextN it.len it.into_code_action_iter).2.next =
      (none, (⟨[]⟩ : CodeActionIter))) ∧
    (∀ a : AnalyzerAction,
      (AnalyzerAction.toCodeSuggestionAdvice a).applicability = a.applicability ∧
      (AnalyzerAction.toCodeSuggestionAdvice a).msg = a.message ∧
      (AnalyzerAction.toCodeSuggestionItem a).rule_name = a.rule_name ∧
      (AnalyzerAction.toCodeSuggestionItem a).category = a.category ∧
      (AnalyzerAction.toCodeSuggestionItem a).suggestion.applicability =
        a.applicability ∧
      (AnalyzerAction.toCodeSuggestionItem a).suggestion.msg = a.message ∧
      (AnalyzerAction.toCodeSuggestionItem a).suggestion.labels = []) := by
  obtain ⟨l⟩ := it
  refine ⟨?_, ?_, rfl, rfl, ?_, ?_,
    fun a => ⟨rfl, rfl, rfl, rfl, rfl, rfl, rfl⟩⟩
  · exact congrArg Prod.fst (advice_nextN_drain l)
  · exact congrArg Prod.fst (item_nextN_drain l)
  · rw [show (⟨l⟩ : AnalyzerActionIter).into_code_suggestion_advices =
        (⟨l⟩ : CodeSuggestionAdviceIter) from rfl,
      show (⟨l⟩ : AnalyzerActionIter).len = l.length from rfl,
      advice_nextN_drain l]
    rfl
  · rw [show (⟨l⟩ : AnalyzerActionIter).into_code_action_iter =
        (⟨l⟩ : CodeActionIter) from rfl,
      show (⟨l⟩ : AnalyzerActionIter).len = l.length from rfl,
      item_nextN_drain l]
    rfl

/-- C9: projecting an analyzer action whose mutation batch contains no
edits is total: the reduction to a covering range and replacement yields
nothing, and the projections substitute the empty (default) range and
empty replacement text instead of failing. -/
theorem empty_mutation_projection_total (a : AnalyzerAction)
    (h : a.mutation.edits = []) :
    a.mutation.as_text_range_and_edit = none ∧
    (AnalyzerAction.toCodeSuggestionAdvice a).suggestion = "" ∧
    (AnalyzerAction.toCodeSuggestionItem a).suggestion.span = ⟨0, 0⟩ ∧
    (AnalyzerAction.toCodeSuggestionItem a).suggestion.suggestion = "" := by
  have hred : a.mutation.as_text_range_and_edit = none := by
    simp only [BatchMutation.as_text_range_and_edit]
    rw [h]
  refine ⟨hred, ?_, ?_, ?_⟩ <;>
    simp [AnalyzerAction.toCodeSuggestionAdvice,
      AnalyzerAction.toCodeSuggestionItem, hred]

/-- An action with an empty mutation batch, used by the C9 witness. -/
def emptyMutationAction : AnalyzerAction :=
  { rule_name := none
    category := ActionCategory.QuickFix
    applicability := Applicability.Always
    message := "No-op."
    mutation := ⟨[]⟩ }

/-- C9 witness: the projections of a concrete action with an empty mutation
batch carry the default range and empty replacement text. -/
theorem empty_mutation_projection_total_witness :
    (AnalyzerAction.toCodeSuggestionAdvice emptyMutationAction).suggestion = "" ∧
    (AnalyzerAction.toCodeSuggestionItem emptyMutationAction).suggestion.span =
      ⟨0, 0⟩ :=
  ⟨(empty_mutation_projection_total emptyMutationAction rfl).2.1,
    (empty_mutation_projection_total emptyMutationAction rfl).2.2.1⟩

end Biome
